import Mathlib

/-!
Shallow embedding of the `sql_firewall` PostgreSQL extension
(`src/sql_firewall.c`) and proofs about its decision engine, rule store,
external query-text store and query normalization.

Machine integers of the C source (Oid, uint32, int64, Size) are modelled as
`Nat`, and C `int` fields that can legitimately hold `-1` (query lengths) as
`Int`.  Pointers that may be NULL are modelled as `Option`.  The shared hash
table is modelled as a key-unique association list; the external query-text
file as a `List Char`.  File-I/O success of a write is an explicit boolean
oracle parameter.  Single-threaded execution is modelled (locking is dropped);
the garbage-collection generation recheck of `pgss_store` therefore never
fires and is not modelled, and the extent reservation that `qtext_store`
leaks on a failed write is not modelled either (no claim depends on them).
-/

set_option autoImplicit false

namespace SqlFirewall

/-- Firewall modes, from the `pgfw_mode` GUC enum in the source. -/
inductive Mode where
  | PGFW_MODE_DISABLED
  | PGFW_MODE_LEARNING
  | PGFW_MODE_PERMISSIVE
  | PGFW_MODE_ENFORCING
deriving DecidableEq, Repr

/-- Rule engines, from the `pgfw_rule_engine` GUC enum in the source. -/
inductive Engine where
  | PGFW_ENGINE_NONE
  | PGFW_ENGINE_WHITELIST
  | PGFW_ENGINE_BLACKLIST
  | PGFW_ENGINE_HYBRID
deriving DecidableEq, Repr

/-- Rule entry types `'d'`/`'w'`/`'b'` from the source enum. -/
inductive RuleType where
  | PGFW_DUMMY_ENTRY
  | PGFW_WHITELIST_ENTRY
  | PGFW_BLACKLIST_ENTRY
deriving DecidableEq, Repr

/-- `InvalidOid` is the wildcard user id meaning "applies to all users". -/
def InvalidOid : Nat := 0

/-- The per-entry counters (`Counters` struct): `calls` and `banned`. -/
structure Counters where
  calls : Nat
  banned : Nat
deriving DecidableEq, Repr

/-- `pgssHashKey`: hash key of a rule entry. -/
structure RuleKey where
  userid : Nat
  queryid : Nat
  type : RuleType
deriving DecidableEq, Repr

/-- `pgssEntry`: a rule entry.  `query_len` is a C `int` that is set to `-1`
when a garbage collection invalidates the entry's text reference, hence
`Int`.  The `type` field is separate from `key.type` because `entry_alloc`
leaves it uninitialized (modelled as the dummy sentinel) and callers assign
it afterwards. -/
structure Entry where
  key : RuleKey
  counters : Counters
  query_offset : Nat
  query_len : Int
  encoding : Nat
  type : RuleType
deriving DecidableEq, Repr

/-- `hash_search(pgss_hash, key, HASH_FIND, NULL)`: find the entry with the
given key.  The shared hash table is modelled as a list with unique keys. -/
def hash_find (entries : List Entry) (k : RuleKey) : Option Entry :=
  entries.find? (fun e => decide (e.key = k))

/-- `lookup_rule` (with its helper `__lookup_rule`): try the exact
`(userid, queryid, rule_type)` key, then fall back to the wildcard user
`InvalidOid`. -/
def lookup_rule (entries : List Entry) (userid queryid : Nat)
    (rule_type : RuleType) : Option Entry :=
  if userid ≠ InvalidOid then
    match hash_find entries ⟨userid, queryid, rule_type⟩ with
    | some e => some e
    | none => hash_find entries ⟨InvalidOid, queryid, rule_type⟩
  else
    hash_find entries ⟨InvalidOid, queryid, rule_type⟩

/-- `lookup_whitelist`. -/
def lookup_whitelist (entries : List Entry) (userid queryid : Nat) : Option Entry :=
  lookup_rule entries userid queryid RuleType.PGFW_WHITELIST_ENTRY

/-- `lookup_blacklist`. -/
def lookup_blacklist (entries : List Entry) (userid queryid : Nat) : Option Entry :=
  lookup_rule entries userid queryid RuleType.PGFW_BLACKLIST_ENTRY

/-- The `switch (entry->type)` body of `collect_entry_statistics`: a
whitelist entry's `calls` is incremented, a blacklist entry's `banned`;
a dummy entry is untouched. -/
def bump_entry (e : Entry) : Entry :=
  match e.type with
  | RuleType.PGFW_WHITELIST_ENTRY =>
      { e with counters := { e.counters with calls := e.counters.calls + 1 } }
  | RuleType.PGFW_BLACKLIST_ENTRY =>
      { e with counters := { e.counters with banned := e.counters.banned + 1 } }
  | RuleType.PGFW_DUMMY_ENTRY => e

/-- `collect_entry_statistics`: a NULL entry is ignored; otherwise the entry
(identified in the shared table by its key) has its counter bumped. -/
def collect_entry_statistics (entries : List Entry) (oe : Option Entry) : List Entry :=
  match oe with
  | none => entries
  | some t => entries.map (fun e => if e.key = t.key then bump_entry e else e)

/-- `__to_be_prohibited`: the core rule-engine verdict given the (possibly
NULL) whitelist and blacklist lookup results.  Returns the verdict together
with the updated entry list; `none` models the `elog(ERROR)` raised for the
`PGFW_ENGINE_NONE` default case. -/
def __to_be_prohibited (engine : Engine) (entries : List Entry)
    (whitelist_entry blacklist_entry : Option Entry) :
    Option (Bool × List Entry) :=
  match engine with
  | Engine.PGFW_ENGINE_WHITELIST =>
      some (whitelist_entry.isNone, collect_entry_statistics entries whitelist_entry)
  | Engine.PGFW_ENGINE_BLACKLIST =>
      some (blacklist_entry.isSome, collect_entry_statistics entries blacklist_entry)
  | Engine.PGFW_ENGINE_HYBRID =>
      some (whitelist_entry.isNone || blacklist_entry.isSome,
        if whitelist_entry.isSome && blacklist_entry.isNone then
          collect_entry_statistics entries whitelist_entry
        else if blacklist_entry.isSome then
          collect_entry_statistics entries blacklist_entry
        else entries)
  | Engine.PGFW_ENGINE_NONE => none

/-- `to_be_prohibited`: the blacklist is searched first (for the blacklist
and hybrid engines); the whitelist is searched only when no blacklist entry
matched (for the whitelist and hybrid engines). -/
def to_be_prohibited (engine : Engine) (entries : List Entry)
    (userid queryid : Nat) : Option (Bool × List Entry) :=
  let blacklist_entry : Option Entry :=
    if engine = Engine.PGFW_ENGINE_BLACKLIST ∨ engine = Engine.PGFW_ENGINE_HYBRID then
      lookup_blacklist entries userid queryid
    else none
  let whitelist_entry : Option Entry :=
    if blacklist_entry = none then
      if engine = Engine.PGFW_ENGINE_WHITELIST ∨ engine = Engine.PGFW_ENGINE_HYBRID then
        lookup_whitelist entries userid queryid
      else none
    else none
  __to_be_prohibited engine entries whitelist_entry blacklist_entry

/-- Result of `entry_alloc`: the returned entry pointer (NULL as `none`),
the updated table, and whether the capacity warning was emitted. -/
structure AllocResult where
  entry : Option Entry
  entries : List Entry
  warned : Bool
deriving DecidableEq, Repr

/-- `entry_alloc`: reject with a warning when the table already holds
`pgss_max` entries; otherwise find the existing entry for the key or create
a fresh one with zeroed counters and the given text reference.  The `type`
field of a fresh entry is uninitialized in the C source; the dummy sentinel
models that (every caller assigns it right after). -/
def entry_alloc (pgss_max : Nat) (entries : List Entry) (key : RuleKey)
    (query_offset : Nat) (query_len : Int) (encoding : Nat) : AllocResult :=
  if entries.length ≥ pgss_max then
    ⟨none, entries, true⟩
  else
    match hash_find entries key with
    | some e => ⟨some e, entries, false⟩
    | none =>
        let e : Entry :=
          ⟨key, ⟨0, 0⟩, query_offset, query_len, encoding, RuleType.PGFW_DUMMY_ENTRY⟩
        ⟨some e, entries ++ [e], false⟩

/-- The caller-side assignment `entry->type = t` after `entry_alloc`. -/
def set_entry_type (entries : List Entry) (k : RuleKey) (t : RuleType) : List Entry :=
  entries.map (fun e => if e.key = k then { e with type := t } else e)

/-- The caller-side counter assignment of `pgss_restore`. -/
def set_entry_counters (entries : List Entry) (k : RuleKey)
    (calls banned : Nat) : List Entry :=
  entries.map (fun e => if e.key = k then { e with counters := ⟨calls, banned⟩ } else e)

/-- `qtext_store` (successful-write case): the text plus a trailing NUL
terminator is appended at the current extent; the reserved offset is
returned. -/
def qtext_store (qtext : List Char) (text : List Char) : Nat × List Char :=
  (qtext.length, qtext ++ text ++ [Char.ofNat 0])

/-- `qtext_fetch`: validate an `(offset, length)` reference against the
loaded file image (`none` models a NULL buffer from a failed load) and
return the referenced text, or `none` for any violation.  The C buffer size
is the length of the list. -/
def qtext_fetch (query_offset : Nat) (query_len : Int)
    (buffer : Option (List Char)) : Option (List Char) :=
  match buffer with
  | none => none
  | some buf =>
      if query_len < 0 then none
      else if query_offset + query_len.toNat ≥ buf.length then none
      else if buf.get? (query_offset + query_len.toNat) ≠ some (Char.ofNat 0) then none
      else some ((buf.drop query_offset).take query_len.toNat)

/-- The copy loop of `generate_normalized_query`, after
`fill_in_constant_lengths` has resolved and sorted the spans.  State:
current source location `quer_loc`, the previous resolved span's offset
`last_off` and length `last_tok_len`, and the output accumulated so far.
A span of negative length (an unresolved duplicate) is skipped.  The
C `memcpy` length `off - last_off - last_tok_len` is asserted nonnegative
in the source; `Int.toNat` models that the copy length is used as a size. -/
def gnq_loop (query : List Char) :
    List (Nat × Int) → Nat → Nat → Nat → List Char → List Char
  | [], quer_loc, _, _, acc => acc ++ query.drop quer_loc
  | (off, tok_len) :: rest, quer_loc, last_off, last_tok_len, acc =>
      if tok_len < 0 then
        gnq_loop query rest quer_loc last_off last_tok_len acc
      else
        let len_to_wrt : Nat := ((off : Int) - (last_off : Int) - (last_tok_len : Int)).toNat
        gnq_loop query rest (off + tok_len.toNat) off tok_len.toNat
          (acc ++ (query.drop quer_loc).take len_to_wrt ++ [ '?' ])

/-- `generate_normalized_query`: replace each resolved constant span of the
query text with a single placeholder character. -/
def generate_normalized_query (query : List Char) (spans : List (Nat × Int)) :
    List Char :=
  gnq_loop query spans 0 0 0 []

/-- Modelled from the spec: `normalize(text, spans)` replaces each resolved
literal span by a single placeholder character and preserves every byte
outside the spans.  Used as the comparison point for the normalization
refinement claim. -/
def spec_normalize (query : List Char) : List (Nat × Int) → Nat → List Char
  | [], pos => query.drop pos
  | (off, len) :: rest, pos =>
      if len < 0 then spec_normalize query rest pos
      else (query.drop pos).take (off - pos) ++ [ '?' ] ++
        spec_normalize query rest (off + len.toNat)

/-- Well-formedness of a span list against a query of length `query_len`,
starting from source position `pos`: resolved spans are sorted, mutually
non-overlapping and lie within the text. -/
def spans_wf (query_len : Nat) : List (Nat × Int) → Nat → Bool
  | [], _ => true
  | (off, len) :: rest, pos =>
      if len < 0 then spans_wf query_len rest pos
      else decide (pos ≤ off) && decide (off + len.toNat ≤ query_len) &&
        spans_wf query_len rest (off + len.toNat)

/-- The text stored by the learning path of `pgss_store`: the normalized
query when the caller supplied a jumble state, the raw query otherwise. -/
def learn_text (query : List Char) (jstate : Option (List (Nat × Int))) : List Char :=
  match jstate with
  | some spans => generate_normalized_query query spans
  | none => query

/-- Outcome of one `pgss_store` evaluation.  `crash` models the undefined
behavior of dereferencing the NULL pointer returned by `entry_alloc`;
`internalError` models the `elog(ERROR)` for a missing rule engine. -/
inductive StoreOutcome where
  | allow
  | deny
  | internalError
  | crash
deriving DecidableEq, Repr

/-- The shared firewall state (`pgssSharedState` scalars, the GUC settings,
the hash table and the external query-text file). -/
structure FwState where
  mode : Mode
  rule_engine : Engine
  pgss_max : Nat
  warning_count : Nat
  error_count : Nat
  entries : List Entry
  qtext : List Char
deriving DecidableEq, Repr

/-- `stat_warning_increment`. -/
def stat_warning_increment (st : FwState) : FwState :=
  { st with warning_count := st.warning_count + 1 }

/-- `stat_error_increment`. -/
def stat_error_increment (st : FwState) : FwState :=
  { st with error_count := st.error_count + 1 }

/-- `pgss_store`: the per-statement evaluation path.  `jstate` carries the
constant spans when the caller has a jumble state (NULL otherwise), and
`io_ok` is the oracle for the success of the external text-file write.
In Enforcing mode a prohibited verdict raises a hard error (`deny`) after
incrementing the global error count; in Permissive mode it warns, increments
the global warning count and falls through (`allow`); in Learning mode a
whitelist miss appends the (normalized) text and creates a whitelist entry;
Disabled mode does nothing. -/
def pgss_store (st : FwState) (userid queryid : Nat) (query : List Char)
    (jstate : Option (List (Nat × Int))) (io_ok : Bool) (encoding : Nat) :
    StoreOutcome × FwState :=
  match st.mode with
  | Mode.PGFW_MODE_ENFORCING =>
      match to_be_prohibited st.rule_engine st.entries userid queryid with
      | none => (StoreOutcome.internalError, st)
      | some (true, es) =>
          (StoreOutcome.deny, stat_error_increment { st with entries := es })
      | some (false, es) => (StoreOutcome.allow, { st with entries := es })
  | Mode.PGFW_MODE_PERMISSIVE =>
      match to_be_prohibited st.rule_engine st.entries userid queryid with
      | none => (StoreOutcome.internalError, st)
      | some (true, es) =>
          (StoreOutcome.allow, stat_warning_increment { st with entries := es })
      | some (false, es) => (StoreOutcome.allow, { st with entries := es })
  | Mode.PGFW_MODE_LEARNING =>
      match lookup_whitelist st.entries userid queryid with
      | some _ => (StoreOutcome.allow, st)
      | none =>
          let norm_query : List Char := learn_text query jstate
          if io_ok then
            let stored := qtext_store st.qtext norm_query
            let key : RuleKey := ⟨userid, queryid, RuleType.PGFW_WHITELIST_ENTRY⟩
            let r := entry_alloc st.pgss_max st.entries key stored.1
              (norm_query.length : Int) encoding
            match r.entry with
            | none =>
                (StoreOutcome.crash, { st with entries := r.entries, qtext := stored.2 })
            | some e =>
                (StoreOutcome.allow,
                  { st with
                      entries := set_entry_type r.entries e.key
                        RuleType.PGFW_WHITELIST_ENTRY,
                      qtext := stored.2 })
          else (StoreOutcome.allow, st)
  | Mode.PGFW_MODE_DISABLED => (StoreOutcome.allow, st)

/-- Errors raised (`ereport`/`elog` with level ERROR) by the administrative
SQL functions and by `pgss_restore`. -/
inductive AdminError where
  | notLoaded
  | notSuperuser
  | notDisabledMode
  | badRuleType
  | qtextStoreFailed
  | entryAllocFailed
deriving DecidableEq, Repr

/-- `pgss_restore`: restore/add one rule.  When the key already exists the
function returns success immediately without touching anything; otherwise
the text is appended and a fresh entry is created with the given counters. -/
def pgss_restore (pgss_max : Nat) (entries : List Entry) (qtext : List Char)
    (userid queryid : Nat) (query : List Char) (calls banned : Nat)
    (rule_type : RuleType) (io_ok : Bool) (encoding : Nat) :
    Except AdminError (List Entry × List Char) :=
  let key : RuleKey := ⟨userid, queryid, rule_type⟩
  match hash_find entries key with
  | some _ => Except.ok (entries, qtext)
  | none =>
      if io_ok then
        let stored := qtext_store qtext query
        let r := entry_alloc pgss_max entries key stored.1
          (query.length : Int) encoding
        match r.entry with
        | none => Except.error AdminError.entryAllocFailed
        | some e =>
            Except.ok
              (set_entry_counters (set_entry_type r.entries e.key rule_type)
                e.key calls banned,
               stored.2)
      else Except.error AdminError.qtextStoreFailed

/-- `__add_rule` via `add_rule`: delegates to `pgss_restore` with zero
counters. -/
def __add_rule (pgss_max : Nat) (entries : List Entry) (qtext : List Char)
    (userid queryid : Nat) (query : List Char) (rule_type : RuleType)
    (io_ok : Bool) (encoding : Nat) : Except AdminError (List Entry × List Char) :=
  pgss_restore pgss_max entries qtext userid queryid query 0 0 rule_type io_ok encoding

/-- The quoting scan of `sql_firewall_export_rule`: `strchr` over the fetched
query text for newline, carriage return, comma and double quote. -/
def export_needs_quote (qstr : List Char) : Bool :=
  qstr.any (fun c =>
    decide (c = Char.ofNat 10) || decide (c = Char.ofNat 13) ||
    decide (c = ',') || decide (c = '"'))

/-- Per-entry processing of the `sql_firewall_export_rule` loop: the text is
fetched with `qtext_fetch` and then scanned unconditionally for quoting
characters.  `none` models the undefined behavior of calling `strchr` on the
NULL pointer that `qtext_fetch` returns for an invalid reference. -/
def export_entry_scan (buffer : Option (List Char)) (e : Entry) : Option Bool :=
  match qtext_fetch e.query_offset e.query_len buffer with
  | some qstr => some (export_needs_quote qstr)
  | none => none

/-- The invalidation performed by `gc_qtexts` when it cannot fetch an
entry's text during compaction: `query_offset = 0`, `query_len = -1`. -/
def gc_invalidate_entry (e : Entry) : Entry :=
  { e with query_offset := 0, query_len := -1 }

/-- `entry_reset`: remove every hash-table entry and truncate the external
query-text file to empty. -/
def entry_reset (st : FwState) : FwState :=
  { st with entries := [], qtext := [] }

/-- `sql_firewall_reset`: superuser check, then the disabled-mode check,
then the loaded check, then `entry_reset`. -/
def sql_firewall_reset (loaded su : Bool) (st : FwState) :
    Except AdminError FwState :=
  if ¬ su then Except.error AdminError.notSuperuser
  else if st.mode ≠ Mode.PGFW_MODE_DISABLED then Except.error AdminError.notDisabledMode
  else if ¬ loaded then Except.error AdminError.notLoaded
  else Except.ok (entry_reset st)

/-- `sql_firewall_add_rule`: loaded check, superuser check, disabled-mode
check, rule-type check, then `add_rule`/`__add_rule`/`pgss_restore`.  The
query id recomputed by the host parser is an input. -/
def sql_firewall_add_rule (loaded su : Bool) (st : FwState)
    (userid queryid : Nat) (query : List Char) (rule_type : RuleType)
    (io_ok : Bool) (encoding : Nat) : Except AdminError FwState :=
  if ¬ loaded then Except.error AdminError.notLoaded
  else if ¬ su then Except.error AdminError.notSuperuser
  else if st.mode ≠ Mode.PGFW_MODE_DISABLED then Except.error AdminError.notDisabledMode
  else if rule_type = RuleType.PGFW_DUMMY_ENTRY then Except.error AdminError.badRuleType
  else
    match __add_rule st.pgss_max st.entries st.qtext userid queryid query
        rule_type io_ok encoding with
    | Except.ok (es, qt) => Except.ok { st with entries := es, qtext := qt }
    | Except.error e => Except.error e

/-- `entry_delete` via `__del_rule`: remove the keyed entry if present. -/
def entry_delete (entries : List Entry) (userid queryid : Nat)
    (rule_type : RuleType) : List Entry :=
  entries.filter (fun e => decide (e.key ≠ RuleKey.mk userid queryid rule_type))

/-- `sql_firewall_del_rule`: loaded check, superuser check, disabled-mode
check, then `del_rule`/`entry_delete`. -/
def sql_firewall_del_rule (loaded su : Bool) (st : FwState)
    (userid queryid : Nat) (rule_type : RuleType) : Except AdminError FwState :=
  if ¬ loaded then Except.error AdminError.notLoaded
  else if ¬ su then Except.error AdminError.notSuperuser
  else if st.mode ≠ Mode.PGFW_MODE_DISABLED then Except.error AdminError.notDisabledMode
  else Except.ok { st with entries := entry_delete st.entries userid queryid rule_type }

/-- One parsed CSV record of the rule import file: user id, query id,
query text, calls, banned, rule type. -/
structure CsvRecord where
  userid : Nat
  queryid : Nat
  query : List Char
  calls : Nat
  banned : Nat
  rule_type : RuleType
deriving DecidableEq, Repr

/-- The restore loop of `sql_firewall_import_rule` over the parsed records. -/
def import_records (pgss_max : Nat) (io_ok : Bool) (encoding : Nat) :
    List CsvRecord → List Entry → List Char →
    Except AdminError (List Entry × List Char)
  | [], entries, qtext => Except.ok (entries, qtext)
  | r :: rest, entries, qtext =>
      match pgss_restore pgss_max entries qtext r.userid r.queryid r.query
          r.calls r.banned r.rule_type io_ok encoding with
      | Except.ok (es, qt) => import_records pgss_max io_ok encoding rest es qt
      | Except.error e => Except.error e

/-- `sql_firewall_import_rule`: loaded check, superuser check, disabled-mode
check, then restoring every parsed record. -/
def sql_firewall_import_rule (loaded su : Bool) (st : FwState)
    (records : List CsvRecord) (io_ok : Bool) (encoding : Nat) :
    Except AdminError FwState :=
  if ¬ loaded then Except.error AdminError.notLoaded
  else if ¬ su then Except.error AdminError.notSuperuser
  else if st.mode ≠ Mode.PGFW_MODE_DISABLED then Except.error AdminError.notDisabledMode
  else
    match import_records st.pgss_max io_ok encoding records st.entries st.qtext with
    | Except.ok (es, qt) => Except.ok { st with entries := es, qtext := qt }
    | Except.error e => Except.error e

/-- `sql_firewall_export_rule`: loaded check, superuser check, disabled-mode
check, then the read-only export loop over all entries against the loaded
text-file image. -/
def sql_firewall_export_rule (loaded su : Bool) (st : FwState)
    (buffer : Option (List Char)) : Except AdminError (List (Option Bool)) :=
  if ¬ loaded then Except.error AdminError.notLoaded
  else if ¬ su then Except.error AdminError.notSuperuser
  else if st.mode ≠ Mode.PGFW_MODE_DISABLED then Except.error AdminError.notDisabledMode
  else Except.ok (st.entries.map (export_entry_scan buffer))

/-! ## Helper lemmas about the rule store -/

theorem hash_find_eq {entries : List Entry} {k : RuleKey} {e : Entry}
    (h : hash_find entries k = some e) : e.key = k ∧ e ∈ entries := by
  unfold hash_find at h
  refine ⟨?_, List.mem_of_find?_eq_some h⟩
  have hp := List.find?_some h
  simpa using hp

theorem hash_find_none {entries : List Entry} {k : RuleKey}
    (h : hash_find entries k = none) : ∀ e ∈ entries, e.key ≠ k := by
  unfold hash_find at h
  intro e he
  have := List.find?_eq_none.mp h e he
  simpa using this

theorem lookup_rule_spec {entries : List Entry} {userid queryid : Nat}
    {rule_type : RuleType} {e : Entry}
    (h : lookup_rule entries userid queryid rule_type = some e) :
    e ∈ entries ∧ e.key.type = rule_type ∧ e.key.queryid = queryid := by
  unfold lookup_rule at h
  by_cases hu : userid ≠ InvalidOid
  · rw [if_pos hu] at h
    cases hfind : hash_find entries ⟨userid, queryid, rule_type⟩ with
    | some e' =>
        rw [hfind] at h
        cases h
        obtain ⟨hk, hm⟩ := hash_find_eq hfind
        exact ⟨hm, by rw [hk], by rw [hk]⟩
    | none =>
        rw [hfind] at h
        obtain ⟨hk, hm⟩ := hash_find_eq h
        exact ⟨hm, by rw [hk], by rw [hk]⟩
  · rw [if_neg hu] at h
    obtain ⟨hk, hm⟩ := hash_find_eq h
    exact ⟨hm, by rw [hk], by rw [hk]⟩

theorem bump_entry_key (e : Entry) : (bump_entry e).key = e.key := by
  unfold bump_entry
  cases e.type <;> rfl

theorem collect_keys (entries : List Entry) (oe : Option Entry) :
    (collect_entry_statistics entries oe).map (fun e => e.key) =
      entries.map (fun e => e.key) := by
  cases oe with
  | none => rfl
  | some t =>
      simp only [collect_entry_statistics, List.map_map]
      apply List.map_congr_left
      intro e _
      by_cases h : e.key = t.key <;> simp [h, bump_entry_key]

theorem __to_be_prohibited_keys {engine : Engine} {entries : List Entry}
    {we be : Option Entry} {p : Bool} {es' : List Entry}
    (h : __to_be_prohibited engine entries we be = some (p, es')) :
    es'.map (fun e => e.key) = entries.map (fun e => e.key) := by
  cases engine with
  | PGFW_ENGINE_NONE => simp [__to_be_prohibited] at h
  | PGFW_ENGINE_WHITELIST =>
      simp only [__to_be_prohibited, Option.some.injEq, Prod.mk.injEq] at h
      rw [← h.2]
      exact collect_keys entries we
  | PGFW_ENGINE_BLACKLIST =>
      simp only [__to_be_prohibited, Option.some.injEq, Prod.mk.injEq] at h
      rw [← h.2]
      exact collect_keys entries be
  | PGFW_ENGINE_HYBRID =>
      simp only [__to_be_prohibited, Option.some.injEq, Prod.mk.injEq] at h
      rw [← h.2]
      split
      · exact collect_keys entries we
      · split
        · exact collect_keys entries be
        · rfl

theorem to_be_prohibited_keys {engine : Engine} {entries : List Entry}
    {userid queryid : Nat} {p : Bool} {es' : List Entry}
    (h : to_be_prohibited engine entries userid queryid = some (p, es')) :
    es'.map (fun e => e.key) = entries.map (fun e => e.key) := by
  unfold to_be_prohibited at h
  exact __to_be_prohibited_keys h

/-! ## Sample fixtures used by witnesses and counterexamples -/

/-- A concrete whitelist key used by concrete instances. -/
def wkey : RuleKey := ⟨1, 7, RuleType.PGFW_WHITELIST_ENTRY⟩

/-- A concrete blacklist key used by concrete instances. -/
def bkey : RuleKey := ⟨1, 7, RuleType.PGFW_BLACKLIST_ENTRY⟩

/-- A concrete whitelist entry used by concrete instances. -/
def wentry : Entry := ⟨wkey, ⟨2, 0⟩, 0, 3, 0, RuleType.PGFW_WHITELIST_ENTRY⟩

/-- A concrete blacklist entry used by concrete instances. -/
def bentry : Entry := ⟨bkey, ⟨0, 5⟩, 4, 3, 0, RuleType.PGFW_BLACKLIST_ENTRY⟩

/-! ## C5: capacity behavior of entry insertion -/

/-- Claim C5: an insertion attempted when the store already holds at least
`sql_firewall.max` entries returns no entry, emits the capacity warning and
leaves the store untouched; below capacity the insertion returns the
already-existing entry for the key unchanged, or creates exactly the fresh
zero-counter entry. -/
theorem C5_entry_alloc_capacity (pgss_max : Nat) (entries : List Entry)
    (key : RuleKey) (query_offset : Nat) (query_len : Int) (encoding : Nat) :
    (entries.length ≥ pgss_max →
      entry_alloc pgss_max entries key query_offset query_len encoding =
        ⟨none, entries, true⟩)
    ∧ (entries.length < pgss_max →
        (∀ e, hash_find entries key = some e →
          entry_alloc pgss_max entries key query_offset query_len encoding =
            ⟨some e, entries, false⟩)
        ∧ (hash_find entries key = none →
          entry_alloc pgss_max entries key query_offset query_len encoding =
            ⟨some ⟨key, ⟨0, 0⟩, query_offset, query_len, encoding,
                RuleType.PGFW_DUMMY_ENTRY⟩,
              entries ++ [⟨key, ⟨0, 0⟩, query_offset, query_len, encoding,
                RuleType.PGFW_DUMMY_ENTRY⟩], false⟩)) := by
  refine ⟨fun h => ?_, fun h => ⟨fun e he => ?_, fun hn => ?_⟩⟩
  · simp [entry_alloc, h]
  · have h' : ¬ entries.length ≥ pgss_max := Nat.not_le.mpr h
    simp [entry_alloc, h', he]
  · have h' : ¬ entries.length ≥ pgss_max := Nat.not_le.mpr h
    simp [entry_alloc, h', hn]

/-- Witness for C5 at a concrete store of capacity 1. -/
theorem C5_entry_alloc_capacity_witness :
    ([wentry].length ≥ 1 ∧
      entry_alloc 1 [wentry] bkey 4 3 0 = ⟨none, [wentry], true⟩)
    ∧ (([] : List Entry).length < 1 ∧
      entry_alloc 1 [] wkey 0 3 0 =
        ⟨some ⟨wkey, ⟨0, 0⟩, 0, 3, 0, RuleType.PGFW_DUMMY_ENTRY⟩,
          [⟨wkey, ⟨0, 0⟩, 0, 3, 0, RuleType.PGFW_DUMMY_ENTRY⟩], false⟩) :=
  ⟨⟨by decide,
    (C5_entry_alloc_capacity 1 [wentry] bkey 4 3 0).1 (by decide)⟩,
   ⟨by decide,
    ((C5_entry_alloc_capacity 1 [] wkey 0 3 0).2 (by decide)).2 (by decide)⟩⟩

/-! ## C6: bounds-checked text fetch -/

/-- Claim C6: `qtext_fetch` returns `none` exactly when the buffer is
absent, the length is negative, `offset+length` is not within the buffer,
or the byte at `offset+length` is not a NUL terminator; otherwise it
returns the text at that offset, NUL-terminated within the buffer. -/
theorem C6_qtext_fetch (query_offset : Nat) (query_len : Int)
    (buffer : Option (List Char)) :
    (buffer = none → qtext_fetch query_offset query_len buffer = none)
    ∧ (∀ buf, buffer = some buf →
        (qtext_fetch query_offset query_len buffer = none ↔
          (query_len < 0 ∨ ¬ query_offset + query_len.toNat < buf.length ∨
            buf.get? (query_offset + query_len.toNat) ≠ some (Char.ofNat 0))))
    ∧ (∀ buf s, buffer = some buf →
        qtext_fetch query_offset query_len buffer = some s →
          s = (buf.drop query_offset).take query_len.toNat ∧
          0 ≤ query_len ∧
          query_offset + query_len.toNat < buf.length ∧
          buf.get? (query_offset + query_len.toNat) = some (Char.ofNat 0)) := by
  refine ⟨fun h => by rw [h]; rfl, fun buf hb => ?_, fun buf s hb hs => ?_⟩
  · subst hb
    unfold qtext_fetch
    by_cases h1 : query_len < 0
    · simp [h1]
    · by_cases h2 : query_offset + query_len.toNat ≥ buf.length
      · simp [h1, h2, Nat.not_lt.mpr h2]
      · by_cases h3 : buf.get? (query_offset + query_len.toNat) = some (Char.ofNat 0)
        · simp [h1, h2, h3, Nat.lt_of_not_le h2]
        · simp [h1, h2, h3]
  · subst hb
    unfold qtext_fetch at hs
    by_cases h1 : query_len < 0
    · simp [h1] at hs
    · by_cases h2 : query_offset + query_len.toNat ≥ buf.length
      · simp [h1, h2] at hs
      · simp [h1, h2] at hs
        refine ⟨hs.2.symm, Int.not_lt.mp h1, Nat.lt_of_not_le h2, ?_⟩
        simpa [List.get?_eq_getElem?] using hs.1

/-- Witness for C6 at a concrete two-byte buffer. -/
theorem C6_qtext_fetch_witness :
    qtext_fetch 0 1 (some [ 'a', Char.ofNat 0 ]) = some [ 'a' ] ∧
      (([ 'a' ] : List Char) =
          (([ 'a', Char.ofNat 0 ] : List Char).drop 0).take (Int.toNat 1) ∧
        (0 : Int) ≤ 1 ∧
        0 + (Int.toNat 1) < ([ 'a', Char.ofNat 0 ] : List Char).length ∧
        ([ 'a', Char.ofNat 0 ] : List Char).get? (0 + Int.toNat 1) =
          some (Char.ofNat 0)) :=
  ⟨by decide,
   (C6_qtext_fetch 0 1 (some [ 'a', Char.ofNat 0 ])).2.2
     [ 'a', Char.ofNat 0 ] [ 'a' ] rfl (by decide)⟩

/-! ## C8: NULL entry pointer in the learning path (code bug) -/

/-- Claim C8 (refuting evaluation): in Learning mode, with the query text
successfully stored, the at-capacity branch of `entry_alloc` IS reachable
from `pgss_store`'s entry-creation step: with a full table (one entry,
`pgss_max = 1`) and a whitelist miss, the entry pointer is NULL at the
point `entry->type` is assigned, which the model reports as the crash
outcome (the C source dereferences the NULL pointer). -/
theorem C8_learning_at_capacity_crash :
    (pgss_store
      ⟨Mode.PGFW_MODE_LEARNING, Engine.PGFW_ENGINE_HYBRID, 1, 0, 0, [bentry], []⟩
      1 7 [ 'q' ] none true 0).1 = StoreOutcome.crash := by
  decide

/-! ## C9: NULL text pointer in the export scan (code bug) -/

/-- Claim C9 (refuting evaluation): an entry whose text reference was
invalidated by a failed compaction (`query_len = -1`) does reach the
quoting-character scan of `sql_firewall_export_rule`: `qtext_fetch`
returns NULL for it, and the unconditional `strchr` scan then dereferences
NULL, which the model reports as the undefined outcome `none` — for any
loaded file image. -/
theorem C9_export_scan_invalid_entry :
    qtext_fetch (gc_invalidate_entry wentry).query_offset
        (gc_invalidate_entry wentry).query_len (some [ 'a', Char.ofNat 0 ]) = none ∧
      export_entry_scan (some [ 'a', Char.ofNat 0 ]) (gc_invalidate_entry wentry) = none ∧
      (∀ buffer : Option (List Char),
        export_entry_scan buffer (gc_invalidate_entry wentry) = none) := by
  refine ⟨by decide, by decide, fun buffer => ?_⟩
  cases buffer with
  | none => rfl
  | some buf => simp [export_entry_scan, qtext_fetch, gc_invalidate_entry]

/-! ## C10: restoring or re-adding an existing rule is a no-op -/

/-- Claim C10: restoring or adding a rule whose `(userid, queryid, kind)`
key already exists returns success and leaves the entry table and the
external text store completely unchanged. -/
theorem C10_restore_existing_noop (pgss_max : Nat) (entries : List Entry)
    (qtext : List Char) (userid queryid : Nat) (query : List Char)
    (calls banned : Nat) (rule_type : RuleType) (io_ok : Bool) (encoding : Nat)
    (e : Entry) (hex : hash_find entries ⟨userid, queryid, rule_type⟩ = some e) :
    pgss_restore pgss_max entries qtext userid queryid query calls banned
        rule_type io_ok encoding = Except.ok (entries, qtext)
    ∧ __add_rule pgss_max entries qtext userid queryid query rule_type
        io_ok encoding = Except.ok (entries, qtext) := by
  constructor
  · simp [pgss_restore, hex]
  · simp [__add_rule, pgss_restore, hex]

/-- Witness for C10 at a concrete one-entry store. -/
theorem C10_restore_existing_noop_witness :
    hash_find [wentry] ⟨1, 7, RuleType.PGFW_WHITELIST_ENTRY⟩ = some wentry ∧
      pgss_restore 8 [wentry] [ 'a' ] 1 7 [ 'b' ] 5 6
        RuleType.PGFW_WHITELIST_ENTRY true 0 = Except.ok ([wentry], [ 'a' ]) :=
  ⟨by decide,
   (C10_restore_existing_noop 8 [wentry] [ 'a' ] 1 7 [ 'b' ] 5 6
     RuleType.PGFW_WHITELIST_ENTRY true 0 wentry (by decide)).1⟩

/-! ## C4: administrative mutations only in Disabled mode -/

/-- Claim C4: every administrative mutation (reset, add rule, delete rule,
import, export) invoked by a loaded, superuser caller while the mode is not
Disabled fails with the state error and therefore has no effect; and each of
them can succeed only in Disabled mode. -/
theorem C4_admin_only_disabled (st : FwState) (userid queryid : Nat)
    (query : List Char) (rule_type : RuleType) (records : List CsvRecord)
    (io_ok : Bool) (encoding : Nat) (buffer : Option (List Char))
    (hm : st.mode ≠ Mode.PGFW_MODE_DISABLED) :
    sql_firewall_reset true true st = Except.error AdminError.notDisabledMode
    ∧ sql_firewall_add_rule true true st userid queryid query rule_type io_ok
        encoding = Except.error AdminError.notDisabledMode
    ∧ sql_firewall_del_rule true true st userid queryid rule_type =
        Except.error AdminError.notDisabledMode
    ∧ sql_firewall_import_rule true true st records io_ok encoding =
        Except.error AdminError.notDisabledMode
    ∧ sql_firewall_export_rule true true st buffer =
        Except.error AdminError.notDisabledMode
    ∧ (∀ (loaded su : Bool) (st2 r : FwState),
        sql_firewall_reset loaded su st2 = Except.ok r →
          st2.mode = Mode.PGFW_MODE_DISABLED)
    ∧ (∀ (loaded su : Bool) (st2 r : FwState) (u q2 : Nat) (txt : List Char)
        (rt : RuleType) (io2 : Bool) (enc2 : Nat),
        sql_firewall_add_rule loaded su st2 u q2 txt rt io2 enc2 = Except.ok r →
          st2.mode = Mode.PGFW_MODE_DISABLED)
    ∧ (∀ (loaded su : Bool) (st2 r : FwState) (u q2 : Nat) (rt : RuleType),
        sql_firewall_del_rule loaded su st2 u q2 rt = Except.ok r →
          st2.mode = Mode.PGFW_MODE_DISABLED)
    ∧ (∀ (loaded su : Bool) (st2 r : FwState) (rs : List CsvRecord)
        (io2 : Bool) (enc2 : Nat),
        sql_firewall_import_rule loaded su st2 rs io2 enc2 = Except.ok r →
          st2.mode = Mode.PGFW_MODE_DISABLED)
    ∧ (∀ (loaded su : Bool) (st2 : FwState) (buf2 : Option (List Char))
        (r : List (Option Bool)),
        sql_firewall_export_rule loaded su st2 buf2 = Except.ok r →
          st2.mode = Mode.PGFW_MODE_DISABLED) := by
  refine ⟨?_, ?_, ?_, ?_, ?_, ?_, ?_, ?_, ?_, ?_⟩
  · simp [sql_firewall_reset, hm]
  · simp [sql_firewall_add_rule, hm]
  · simp [sql_firewall_del_rule, hm]
  · simp [sql_firewall_import_rule, hm]
  · simp [sql_firewall_export_rule, hm]
  · intro loaded su st2 r h
    by_contra hne
    cases loaded <;> cases su <;> simp [sql_firewall_reset, hne] at h
  · intro loaded su st2 r u q2 txt rt io2 enc2 h
    by_contra hne
    cases loaded <;> cases su <;> simp [sql_firewall_add_rule, hne] at h
  · intro loaded su st2 r u q2 rt h
    by_contra hne
    cases loaded <;> cases su <;> simp [sql_firewall_del_rule, hne] at h
  · intro loaded su st2 r rs io2 enc2 h
    by_contra hne
    cases loaded <;> cases su <;> simp [sql_firewall_import_rule, hne] at h
  · intro loaded su st2 buf2 r h
    by_contra hne
    cases loaded <;> cases su <;> simp [sql_firewall_export_rule, hne] at h

/-- Witness for C4 at a concrete Enforcing-mode state. -/
theorem C4_admin_only_disabled_witness :
    (FwState.mk Mode.PGFW_MODE_ENFORCING Engine.PGFW_ENGINE_HYBRID 8 0 0 [] []).mode ≠
        Mode.PGFW_MODE_DISABLED ∧
      sql_firewall_reset true true
        (FwState.mk Mode.PGFW_MODE_ENFORCING Engine.PGFW_ENGINE_HYBRID 8 0 0 [] []) =
        Except.error AdminError.notDisabledMode :=
  ⟨by decide,
   (C4_admin_only_disabled
     (FwState.mk Mode.PGFW_MODE_ENFORCING Engine.PGFW_ENGINE_HYBRID 8 0 0 [] [])
     1 7 [ 'q' ] RuleType.PGFW_BLACKLIST_ENTRY [] true 0 none (by decide)).1⟩

/-! ## C1: prohibited verdicts in Enforcing and Permissive mode -/

/-- Claim C1: when the rule-engine verdict for a statement is prohibited,
Enforcing mode increments the global error counter and denies the statement,
Permissive mode increments the global warning counter and still allows it,
and neither mode creates a new rule entry (the key list of the store is
unchanged; only counters of existing entries may move). -/
theorem C1_prohibited_enforcing_permissive (st : FwState) (userid queryid : Nat)
    (query : List Char) (jstate : Option (List (Nat × Int))) (io_ok : Bool)
    (encoding : Nat) (es' : List Entry)
    (hp : to_be_prohibited st.rule_engine st.entries userid queryid =
      some (true, es')) :
    pgss_store { st with mode := Mode.PGFW_MODE_ENFORCING } userid queryid
        query jstate io_ok encoding =
      (StoreOutcome.deny,
        { st with
            mode := Mode.PGFW_MODE_ENFORCING
            entries := es'
            error_count := st.error_count + 1 })
    ∧ pgss_store { st with mode := Mode.PGFW_MODE_PERMISSIVE } userid queryid
        query jstate io_ok encoding =
      (StoreOutcome.allow,
        { st with
            mode := Mode.PGFW_MODE_PERMISSIVE
            entries := es'
            warning_count := st.warning_count + 1 })
    ∧ es'.map (fun e => e.key) = st.entries.map (fun e => e.key) := by
  refine ⟨?_, ?_, to_be_prohibited_keys hp⟩
  · simp [pgss_store, hp, stat_error_increment]
  · simp [pgss_store, hp, stat_warning_increment]

/-- A concrete state holding one blacklist entry, blacklist engine. -/
def st_black : FwState :=
  ⟨Mode.PGFW_MODE_DISABLED, Engine.PGFW_ENGINE_BLACKLIST, 8, 0, 0, [bentry], []⟩

/-- The blacklist entry of `st_black` after one `banned` increment. -/
def bentry_hit : Entry := ⟨bkey, ⟨0, 6⟩, 4, 3, 0, RuleType.PGFW_BLACKLIST_ENTRY⟩

/-- Witness for C1: a blacklisted statement under the blacklist engine. -/
theorem C1_prohibited_enforcing_permissive_witness :
    to_be_prohibited st_black.rule_engine st_black.entries 1 7 =
      some (true, [bentry_hit]) ∧
    pgss_store { st_black with mode := Mode.PGFW_MODE_ENFORCING } 1 7 [ 'q' ]
        none true 0 =
      (StoreOutcome.deny,
        { st_black with
            mode := Mode.PGFW_MODE_ENFORCING
            entries := [bentry_hit]
            error_count := st_black.error_count + 1 }) :=
  ⟨by decide,
   (C1_prohibited_enforcing_permissive st_black 1 7 [ 'q' ] none true 0
     [bentry_hit] (by decide)).1⟩

/-! ## C3: the Learning-mode path -/

theorem lookup_whitelist_none_find {entries : List Entry} {userid queryid : Nat}
    (h : lookup_whitelist entries userid queryid = none) :
    hash_find entries ⟨userid, queryid, RuleType.PGFW_WHITELIST_ENTRY⟩ = none := by
  unfold lookup_whitelist lookup_rule at h
  by_cases hu : userid ≠ InvalidOid
  · rw [if_pos hu] at h
    cases hfind : hash_find entries ⟨userid, queryid, RuleType.PGFW_WHITELIST_ENTRY⟩ with
    | some e => rw [hfind] at h; cases h
    | none => rfl
  · rw [if_neg hu] at h
    have hu' : userid = InvalidOid := not_not.mp hu
    rw [hu']
    exact h

theorem set_entry_type_append_fresh (entries : List Entry) (k : RuleKey)
    (t : RuleType) (query_offset : Nat) (query_len : Int) (encoding : Nat)
    (h : hash_find entries k = none) :
    set_entry_type
        (entries ++ [⟨k, ⟨0, 0⟩, query_offset, query_len, encoding,
          RuleType.PGFW_DUMMY_ENTRY⟩]) k t =
      entries ++ [⟨k, ⟨0, 0⟩, query_offset, query_len, encoding, t⟩] := by
  unfold set_entry_type
  rw [List.map_append]
  have h1 : entries.map
      (fun e => if e.key = k then { e with type := t } else e) = entries := by
    have hc : ∀ e ∈ entries,
        (if e.key = k then { e with type := t } else e) = e := by
      intro e he
      rw [if_neg (hash_find_none h e he)]
    calc entries.map (fun e => if e.key = k then { e with type := t } else e)
        = entries.map id := List.map_congr_left hc
      _ = entries := List.map_id entries
  rw [h1]
  simp

/-- Claim C3: in Learning mode, a statement with no matching whitelist entry
(wildcard fallback included) has its text normalized (when constant spans
are supplied) and appended to the external text store, and exactly one new
whitelist entry with `calls = 0` and `banned = 0` is created for it; and a
Learning-mode evaluation never yields the Deny outcome, whatever the state
and the outcome of these steps. -/
theorem C3_learning_creates_entry (st : FwState) (userid queryid : Nat)
    (query : List Char) (jstate : Option (List (Nat × Int))) (encoding : Nat)
    (hm : st.mode = Mode.PGFW_MODE_LEARNING)
    (hmiss : lookup_whitelist st.entries userid queryid = none)
    (hcap : st.entries.length < st.pgss_max) :
    pgss_store st userid queryid query jstate true encoding =
      (StoreOutcome.allow,
        { st with
            entries := st.entries ++
              [⟨⟨userid, queryid, RuleType.PGFW_WHITELIST_ENTRY⟩, ⟨0, 0⟩,
                st.qtext.length, ((learn_text query jstate).length : Int),
                encoding, RuleType.PGFW_WHITELIST_ENTRY⟩]
            qtext := st.qtext ++ learn_text query jstate ++ [Char.ofNat 0] })
    ∧ (∀ (st2 : FwState) (u2 q2 : Nat) (query2 : List Char)
        (js2 : Option (List (Nat × Int))) (io2 : Bool) (enc2 : Nat),
        st2.mode = Mode.PGFW_MODE_LEARNING →
        (pgss_store st2 u2 q2 query2 js2 io2 enc2).1 ≠ StoreOutcome.deny) := by
  constructor
  · have hfind := lookup_whitelist_none_find hmiss
    have hcap' : ¬ st.entries.length ≥ st.pgss_max := Nat.not_le.mpr hcap
    simp only [pgss_store, hm, hmiss, qtext_store, entry_alloc, hcap',
      if_false, if_true, ite_false, ite_true, hfind]
    rw [set_entry_type_append_fresh st.entries
      ⟨userid, queryid, RuleType.PGFW_WHITELIST_ENTRY⟩
      RuleType.PGFW_WHITELIST_ENTRY st.qtext.length
      ((learn_text query jstate).length : Int) encoding hfind]
  · intro st2 u2 q2 query2 js2 io2 enc2 hm2
    cases hlw : lookup_whitelist st2.entries u2 q2 with
    | some e => simp [pgss_store, hm2, hlw]
    | none =>
        cases io2 with
        | false => simp [pgss_store, hm2, hlw]
        | true =>
            cases halloc : (entry_alloc st2.pgss_max st2.entries
                ⟨u2, q2, RuleType.PGFW_WHITELIST_ENTRY⟩
                st2.qtext.length
                ((learn_text query2 js2).length : Int) enc2).entry with
            | none => simp [pgss_store, hm2, hlw, qtext_store, halloc]
            | some e => simp [pgss_store, hm2, hlw, qtext_store, halloc]

/-- Witness for C3: first execution of a statement by user 1 in Learning
mode over an empty store, with one constant span. -/
theorem C3_learning_creates_entry_witness :
    (FwState.mk Mode.PGFW_MODE_LEARNING Engine.PGFW_ENGINE_HYBRID 8 0 0 [] []).mode =
        Mode.PGFW_MODE_LEARNING ∧
    lookup_whitelist
        (FwState.mk Mode.PGFW_MODE_LEARNING Engine.PGFW_ENGINE_HYBRID 8 0 0 [] []).entries
        1 7 = none ∧
    pgss_store (FwState.mk Mode.PGFW_MODE_LEARNING Engine.PGFW_ENGINE_HYBRID 8 0 0 [] [])
        1 7 [ 'a', '1' ] (some [(1, 1)]) true 0 =
      (StoreOutcome.allow,
        { FwState.mk Mode.PGFW_MODE_LEARNING Engine.PGFW_ENGINE_HYBRID 8 0 0 [] [] with
            entries := [⟨⟨1, 7, RuleType.PGFW_WHITELIST_ENTRY⟩, ⟨0, 0⟩, 0,
              ((learn_text [ 'a', '1' ] (some [(1, 1)])).length : Int), 0,
              RuleType.PGFW_WHITELIST_ENTRY⟩]
            qtext := learn_text [ 'a', '1' ] (some [(1, 1)]) ++ [Char.ofNat 0] }) :=
  ⟨rfl, by decide,
   (C3_learning_creates_entry
     (FwState.mk Mode.PGFW_MODE_LEARNING Engine.PGFW_ENGINE_HYBRID 8 0 0 [] [])
     1 7 [ 'a', '1' ] (some [(1, 1)]) 0 rfl (by decide) (by decide)).1⟩

/-! ## C2: the Hybrid rule engine -/

/-- Total of the `calls` counters of a store. -/
def sum_calls : List Entry → Nat
  | [] => 0
  | e :: rest => e.counters.calls + sum_calls rest

/-- Total of the `banned` counters of a store. -/
def sum_banned : List Entry → Nat
  | [] => 0
  | e :: rest => e.counters.banned + sum_banned rest

theorem sum_calls_map (entries : List Entry) (f : Entry → Entry)
    (h : ∀ e ∈ entries, (f e).counters.calls = e.counters.calls) :
    sum_calls (entries.map f) = sum_calls entries := by
  induction entries with
  | nil => rfl
  | cons e rest ih =>
      simp only [List.map_cons, sum_calls]
      rw [h e (List.mem_cons_self e rest),
        ih (fun x hx => h x (List.mem_cons_of_mem e hx))]

theorem sum_banned_map (entries : List Entry) (f : Entry → Entry)
    (h : ∀ e ∈ entries, (f e).counters.banned = e.counters.banned) :
    sum_banned (entries.map f) = sum_banned entries := by
  induction entries with
  | nil => rfl
  | cons e rest ih =>
      simp only [List.map_cons, sum_banned]
      rw [h e (List.mem_cons_self e rest),
        ih (fun x hx => h x (List.mem_cons_of_mem e hx))]

theorem map_key_eq_self (entries : List Entry) (k : RuleKey) (g : Entry → Entry)
    (h : ∀ e ∈ entries, e.key ≠ k) :
    entries.map (fun e => if e.key = k then g e else e) = entries := by
  calc entries.map (fun e => if e.key = k then g e else e)
      = entries.map id := List.map_congr_left (fun e he => if_neg (h e he))
    _ = entries := List.map_id entries

theorem sum_total_bump_le (k : RuleKey) (g : Entry → Entry)
    (hg : ∀ e : Entry, (g e).counters.calls + (g e).counters.banned ≤
      e.counters.calls + e.counters.banned + 1)
    (entries : List Entry)
    (hnd : (entries.map (fun e => e.key)).Nodup) :
    sum_calls (entries.map (fun e => if e.key = k then g e else e)) +
      sum_banned (entries.map (fun e => if e.key = k then g e else e)) ≤
      sum_calls entries + sum_banned entries + 1 := by
  induction entries with
  | nil => simp [sum_calls, sum_banned]
  | cons e rest ih =>
      rw [List.map_cons, List.nodup_cons] at hnd
      obtain ⟨hke, hndr⟩ := hnd
      by_cases heq : e.key = k
      · have hrest : ∀ x ∈ rest, x.key ≠ k := by
          intro x hx hxk
          apply hke
          rw [heq, ← hxk]
          exact List.mem_map_of_mem (fun e => e.key) hx
        simp only [List.map_cons, if_pos heq, sum_calls, sum_banned,
          map_key_eq_self rest k g hrest]
        have := hg e
        omega
      · simp only [List.map_cons, if_neg heq, sum_calls, sum_banned]
        have := ih hndr
        omega

theorem bump_entry_total_le (e : Entry) :
    (bump_entry e).counters.calls + (bump_entry e).counters.banned ≤
      e.counters.calls + e.counters.banned + 1 := by
  cases he : e.type <;> simp [bump_entry, he] <;> omega

/-- Claim C2: under the Hybrid engine, the verdict is prohibited iff there
is no whitelist hit or there is a blacklist hit (the blacklist is consulted
first and takes precedence); on a blacklist hit only that entry's `banned`
counter moves (its `calls` is untouched, as is every other entry); `calls`
moves only when whitelisted and not blacklisted; and per evaluation at most
one of the two counter totals moves, never both.  Requires the store
invariant that each entry's type field agrees with its key and that keys
are unique. -/
theorem C2_hybrid_engine (entries : List Entry) (userid queryid : Nat)
    (hwf : ∀ e ∈ entries, e.type = e.key.type)
    (hnd : (entries.map (fun e => e.key)).Nodup) :
    ∃ es',
      to_be_prohibited Engine.PGFW_ENGINE_HYBRID entries userid queryid =
        some ((lookup_whitelist entries userid queryid).isNone ||
          (lookup_blacklist entries userid queryid).isSome, es')
      ∧ (∀ b, lookup_blacklist entries userid queryid = some b →
          es' = entries.map (fun e => if e.key = b.key then
            { e with counters := { e.counters with banned := e.counters.banned + 1 } }
            else e))
      ∧ (lookup_blacklist entries userid queryid = none →
          ∀ w, lookup_whitelist entries userid queryid = some w →
          es' = entries.map (fun e => if e.key = w.key then
            { e with counters := { e.counters with calls := e.counters.calls + 1 } }
            else e))
      ∧ (lookup_blacklist entries userid queryid = none →
          lookup_whitelist entries userid queryid = none → es' = entries)
      ∧ (sum_calls es' = sum_calls entries ∨ sum_banned es' = sum_banned entries)
      ∧ sum_calls es' + sum_banned es' ≤ sum_calls entries + sum_banned entries + 1 := by
  cases hB : lookup_blacklist entries userid queryid with
  | some b =>
      obtain ⟨hbmem, hbtype, -⟩ := lookup_rule_spec hB
      refine ⟨collect_entry_statistics entries (some b), ?_, ?_, ?_, ?_, ?_, ?_⟩
      · simp [to_be_prohibited, __to_be_prohibited, hB]
      · intro b' hb'
        cases hb'
        simp only [collect_entry_statistics]
        apply List.map_congr_left
        intro e he
        by_cases hk : e.key = b.key
        · have hety : e.type = RuleType.PGFW_BLACKLIST_ENTRY := by
            rw [hwf e he, hk, hbtype]
          simp [hk, bump_entry, hety]
        · simp [hk]
      · intro hBn
        cases hBn
      · intro hBn
        cases hBn
      · left
        simp only [collect_entry_statistics]
        apply sum_calls_map
        intro e he
        by_cases hk : e.key = b.key
        · have hety : e.type = RuleType.PGFW_BLACKLIST_ENTRY := by
            rw [hwf e he, hk, hbtype]
          simp [hk, bump_entry, hety]
        · simp [hk]
      · simp only [collect_entry_statistics]
        exact sum_total_bump_le b.key bump_entry bump_entry_total_le entries hnd
  | none =>
      cases hW : lookup_whitelist entries userid queryid with
      | some w =>
          obtain ⟨hwmem, hwtype, -⟩ := lookup_rule_spec hW
          refine ⟨collect_entry_statistics entries (some w), ?_, ?_, ?_, ?_, ?_, ?_⟩
          · simp [to_be_prohibited, __to_be_prohibited, hB, hW]
          · intro b' hb'
            cases hb'
          · intro _ w' hw'
            cases hw'
            simp only [collect_entry_statistics]
            apply List.map_congr_left
            intro e he
            by_cases hk : e.key = w.key
            · have hety : e.type = RuleType.PGFW_WHITELIST_ENTRY := by
                rw [hwf e he, hk, hwtype]
              simp [hk, bump_entry, hety]
            · simp [hk]
          · intro _ hWn
            cases hWn
          · right
            simp only [collect_entry_statistics]
            apply sum_banned_map
            intro e he
            by_cases hk : e.key = w.key
            · have hety : e.type = RuleType.PGFW_WHITELIST_ENTRY := by
                rw [hwf e he, hk, hwtype]
              simp [hk, bump_entry, hety]
            · simp [hk]
          · simp only [collect_entry_statistics]
            exact sum_total_bump_le w.key bump_entry bump_entry_total_le entries hnd
      | none =>
          refine ⟨entries, ?_, ?_, ?_, ?_, ?_, ?_⟩
          · simp [to_be_prohibited, __to_be_prohibited, hB, hW]
          · intro b' hb'
            cases hb'
          · intro _ w' hw'
            cases hw'
          · intro _ _
            rfl
          · left
            rfl
          · omega

/-- Witness for C2: a statement matching both a whitelist and a blacklist
entry of user 1. -/
theorem C2_hybrid_engine_witness :
    (∀ e ∈ [wentry, bentry], e.type = e.key.type) ∧
    (([wentry, bentry].map (fun e => e.key)).Nodup) ∧
    (∃ es',
      to_be_prohibited Engine.PGFW_ENGINE_HYBRID [wentry, bentry] 1 7 =
        some ((lookup_whitelist [wentry, bentry] 1 7).isNone ||
          (lookup_blacklist [wentry, bentry] 1 7).isSome, es')
      ∧ (∀ b, lookup_blacklist [wentry, bentry] 1 7 = some b →
          es' = [wentry, bentry].map (fun e => if e.key = b.key then
            { e with counters := { e.counters with banned := e.counters.banned + 1 } }
            else e))
      ∧ (lookup_blacklist [wentry, bentry] 1 7 = none →
          ∀ w, lookup_whitelist [wentry, bentry] 1 7 = some w →
          es' = [wentry, bentry].map (fun e => if e.key = w.key then
            { e with counters := { e.counters with calls := e.counters.calls + 1 } }
            else e))
      ∧ (lookup_blacklist [wentry, bentry] 1 7 = none →
          lookup_whitelist [wentry, bentry] 1 7 = none → es' = [wentry, bentry])
      ∧ (sum_calls es' = sum_calls [wentry, bentry] ∨
          sum_banned es' = sum_banned [wentry, bentry])
      ∧ sum_calls es' + sum_banned es' ≤
          sum_calls [wentry, bentry] + sum_banned [wentry, bentry] + 1) :=
  ⟨by decide, by decide, C2_hybrid_engine [wentry, bentry] 1 7 (by decide) (by decide)⟩

/-! ## C7: query normalization -/

theorem gnq_loop_all_neg (query : List Char) (spans : List (Nat × Int))
    (h : ∀ s ∈ spans, s.2 < 0) :
    ∀ (quer_loc last_off last_tok_len : Nat) (acc : List Char),
      gnq_loop query spans quer_loc last_off last_tok_len acc =
        acc ++ query.drop quer_loc := by
  induction spans with
  | nil => intro ql lo lt acc; rfl
  | cons s rest ih =>
      intro ql lo lt acc
      obtain ⟨off, len⟩ := s
      have hl : len < 0 := h (off, len) (List.mem_cons_self _ _)
      simp only [gnq_loop, if_pos hl]
      exact ih (fun x hx => h x (List.mem_cons_of_mem _ hx)) ql lo lt acc

theorem gnq_loop_eq_spec (query : List Char) (spans : List (Nat × Int)) :
    ∀ (pos last_off last_tok_len : Nat) (acc : List Char),
      pos = last_off + last_tok_len →
      spans_wf query.length spans pos = true →
      gnq_loop query spans pos last_off last_tok_len acc =
        acc ++ spec_normalize query spans pos := by
  induction spans with
  | nil => intro pos lo lt acc _ _; rfl
  | cons s rest ih =>
      intro pos lo lt acc hpos hwf
      obtain ⟨off, len⟩ := s
      by_cases hlen : len < 0
      · simp only [gnq_loop, spec_normalize, if_pos hlen]
        have hwf' : spans_wf query.length rest pos = true := by
          simpa [spans_wf, if_pos hlen] using hwf
        exact ih pos lo lt acc hpos hwf'
      · have hwf' := hwf
        simp only [spans_wf, if_neg hlen, Bool.and_eq_true, decide_eq_true_eq] at hwf'
        obtain ⟨⟨hle, hin⟩, hrest⟩ := hwf'
        simp only [gnq_loop, spec_normalize, if_neg hlen]
        have harith : ((off : Int) - (lo : Int) - (lt : Int)).toNat = off - pos := by
          omega
        rw [harith]
        rw [ih (off + len.toNat) off len.toNat
          (acc ++ (query.drop pos).take (off - pos) ++ [ '?' ]) rfl hrest]
        simp [List.append_assoc]

theorem spec_normalize_length (query : List Char) (spans : List (Nat × Int)) :
    ∀ pos, spans_wf query.length spans pos = true →
      (∀ s ∈ spans, 0 ≤ s.2 → 1 ≤ s.2) →
      pos ≤ query.length →
      (spec_normalize query spans pos).length + pos ≤ query.length := by
  induction spans with
  | nil =>
      intro pos _ _ hple
      simp only [spec_normalize, List.length_drop]
      omega
  | cons s rest ih =>
      intro pos hwf hres hple
      obtain ⟨off, len⟩ := s
      by_cases hlen : len < 0
      · simp only [spec_normalize, if_pos hlen]
        apply ih pos _ (fun x hx => hres x (List.mem_cons_of_mem _ hx)) hple
        simpa [spans_wf, if_pos hlen] using hwf
      · have hwf' := hwf
        simp only [spans_wf, if_neg hlen, Bool.and_eq_true, decide_eq_true_eq] at hwf'
        obtain ⟨⟨hle, hin⟩, hrest⟩ := hwf'
        have h1 : (1 : Int) ≤ len :=
          hres (off, len) (List.mem_cons_self _ _) (Int.not_lt.mp hlen)
        have h1n : 1 ≤ len.toNat := by omega
        have hrec := ih (off + len.toNat) hrest
          (fun x hx => hres x (List.mem_cons_of_mem _ hx)) (by omega)
        simp only [spec_normalize, if_neg hlen, List.length_append,
          List.length_take, List.length_drop, List.length_singleton]
        omega

/-- Claim C7 counterexample: a resolved span of length 0 is permitted by the
claim (it only requires length >= 0), yet normalizing a one-byte text with
the single resolved span (0, 0) yields output strictly longer than the
input, contradicting the claimed length bound (in the C source this case
also overruns the palloc'd result buffer). -/
theorem C7_zero_length_span_counterexample :
    spans_wf ([ 'a' ] : List Char).length [((0 : Nat), (0 : Int))] 0 = true ∧
    ([ 'a' ] : List Char).length <
      (generate_normalized_query [ 'a' ] [((0 : Nat), (0 : Int))]).length := by
  exact ⟨by decide, by decide⟩

/-- Claim C7 (amended): for every query text and every sorted,
non-overlapping, in-bounds span list, the normalized query is exactly the
text with each resolved span replaced by a single placeholder and every
byte outside the spans preserved (`spec_normalize`); when additionally
every resolved span is nonempty (length >= 1, as the lexer guarantees for
real tokens), the output is never longer than the input; and with zero
resolved spans the output equals the input text. -/
theorem C7_normalize_amended (query : List Char) (spans : List (Nat × Int))
    (hwf : spans_wf query.length spans 0 = true)
    (hres : ∀ s ∈ spans, 0 ≤ s.2 → 1 ≤ s.2) :
    generate_normalized_query query spans = spec_normalize query spans 0
    ∧ (generate_normalized_query query spans).length ≤ query.length
    ∧ (∀ (q2 : List Char) (spans2 : List (Nat × Int)),
        (∀ s ∈ spans2, s.2 < 0) → generate_normalized_query q2 spans2 = q2) := by
  have heq : generate_normalized_query query spans = spec_normalize query spans 0 := by
    unfold generate_normalized_query
    rw [gnq_loop_eq_spec query spans 0 0 0 [] rfl hwf]
    simp
  refine ⟨heq, ?_, ?_⟩
  · rw [heq]
    have := spec_normalize_length query spans 0 hwf hres (Nat.zero_le _)
    omega
  · intro q2 spans2 hneg
    unfold generate_normalized_query
    rw [gnq_loop_all_neg q2 spans2 hneg 0 0 0 []]
    simp

/-- Witness for the amended C7 at a three-byte text with one resolved span. -/
theorem C7_normalize_amended_witness :
    spans_wf ([ 'a', 'b', 'c' ] : List Char).length [((1 : Nat), (1 : Int))] 0 = true ∧
    (∀ s ∈ [((1 : Nat), (1 : Int))], (0 : Int) ≤ s.2 → (1 : Int) ≤ s.2) ∧
    generate_normalized_query [ 'a', 'b', 'c' ] [((1 : Nat), (1 : Int))] =
      spec_normalize [ 'a', 'b', 'c' ] [((1 : Nat), (1 : Int))] 0 ∧
    (generate_normalized_query [ 'a', 'b', 'c' ] [((1 : Nat), (1 : Int))]).length ≤
      ([ 'a', 'b', 'c' ] : List Char).length :=
  ⟨by decide, by decide,
   (C7_normalize_amended [ 'a', 'b', 'c' ] [((1 : Nat), (1 : Int))]
     (by decide) (by decide)).1,
   (C7_normalize_amended [ 'a', 'b', 'c' ] [((1 : Nat), (1 : Int))]
     (by decide) (by decide)).2.1⟩

end SqlFirewall
